import Mathlib

/-!
Shallow embedding of the ai-finance-agent repository.

Source files modelled:
- `app/tools.py`   : the five finance tools and the `TOOL_FUNCTIONS` dispatch table.
- `app/agent.py`   : `FinanceAgent.analyze`, the agent loop.
- `main.py`        : the `/api/analyze` endpoint handler.

Modelling conventions:
- Python dicts with string keys become association lists (`List (String × JVal)`);
  `d[k]` that can raise `KeyError` is modelled with `Except`, `d.get` with defaults.
- JSON-like values become the inductive `JVal`; Python numbers are modelled as
  exact rationals `ℚ` (binary floating point rounding is not modelled), and
  numpy division by zero yields the non-finite values nan/±inf (`NpFloat`,
  embedded as `JVal.jnan`/`jinf`/`jneginf`) rather than raising.
- yfinance network access is modelled by an environment `ToolEnv`: `fetch t`
  returns the market data for ticker `t`, or `Except.error msg` standing for any
  exception raised while fetching, which each tool body catches via its
  `try/except` and converts to the payload with key "error".
- `time.time()` readings are the `startTime`/`finalTime` fields of `ToolEnv`;
  `datetime.now().isoformat()` is the `now` field.
- `json.dumps(result, default=str)` serialization of a tool result into the
  tool_result message is modelled by carrying the payload itself; error message
  strings are modelled without the quote characters the source f-strings place
  around the interpolated ticker.
- The LLM (`self.client.messages.create`) is an oracle: either a finite script
  (`List Response`, one per round) or an infinite one (`ℕ → Response`).
-/

namespace FinAgent

/-- JSON-like values as produced by the tools. Finite numbers are exact
rationals; `jnan`/`jinf`/`jneginf` are the non-finite IEEE floats that numpy
division by zero produces (serialized by `json.dumps` as NaN/Infinity). -/
inductive JVal where
  | jnull : JVal
  | jbool : Bool → JVal
  | jnum : ℚ → JVal
  | jnan : JVal
  | jinf : JVal
  | jneginf : JVal
  | jstr : String → JVal
  | jarr : List JVal → JVal
  | jobj : List (String × JVal) → JVal

/-- A Python dict with string keys (tool payloads, tool arguments). -/
abbrev Payload := List (String × JVal)

/-- Python dict lookup `d.get(k)` as an option: first binding of the key wins. -/
def pyGet (p : Payload) (k : String) : Option JVal :=
  match p with
  | [] => none
  | (a, v) :: rest => if k = a then some v else pyGet rest k

/-- Python `k in d` membership test on a dict. -/
def hasKey (p : Payload) (k : String) : Bool :=
  (pyGet p k).isSome

/-- Python `info.get(k)` (defaults to `None`). -/
def infoGet (info : Payload) (k : String) : JVal :=
  (pyGet info k).getD JVal.jnull

/-- Python `info.get(k, d)` with an explicit default. -/
def infoGetD (info : Payload) (k : String) (d : JVal) : JVal :=
  (pyGet info k).getD d

/-- Python truthiness of a JSON-like value. -/
def truthy : JVal → Bool
  | JVal.jnull => false
  | JVal.jbool b => b
  | JVal.jnum q => decide (q ≠ 0)
  | JVal.jnan => true
  | JVal.jinf => true
  | JVal.jneginf => true
  | JVal.jstr s => decide (s ≠ "")
  | JVal.jarr l => !l.isEmpty
  | JVal.jobj l => !l.isEmpty

/-- Python `round` to an integer: round half to even (banker's rounding),
exact-arithmetic semantics. -/
def roundHalfEven (q : ℚ) : ℤ :=
  let f := ⌊q⌋
  let r := q - (f : ℚ)
  if r < 1/2 then f
  else if 1/2 < r then f + 1
  else if f % 2 = 0 then f else f + 1

/-- Python `round(q, d)` on exact rationals. -/
def pyRound (d : ℕ) (q : ℚ) : ℚ :=
  (roundHalfEven (q * 10 ^ d) : ℚ) / 10 ^ d

/-- Python `int(q)`: truncation toward zero. -/
def pyInt (q : ℚ) : ℤ :=
  if 0 ≤ q then ⌊q⌋ else ⌈q⌉

/-- A numpy float scalar: a finite value (exact-rational model) or one of the
non-finite IEEE values that numpy arithmetic produces instead of raising. -/
inductive NpFloat where
  | fin : ℚ → NpFloat
  | nan : NpFloat
  | inf : NpFloat
  | negInf : NpFloat

/-- numpy float division: a zero denominator does not raise — `0.0 / 0.0`
yields nan and `a / 0.0` with `a ≠ 0` yields a signed infinity (with a
RuntimeWarning), unlike plain Python float division which raises
ZeroDivisionError. -/
def npDiv (a b : ℚ) : NpFloat :=
  if b = 0 then
    if a = 0 then NpFloat.nan
    else if 0 < a then NpFloat.inf
    else NpFloat.negInf
  else NpFloat.fin (a / b)

/-- Multiplication of a numpy float by the positive literal 100 (nan and the
infinities are absorbing). -/
def npMul100 : NpFloat → NpFloat
  | NpFloat.fin q => NpFloat.fin (q * 100)
  | x => x

/-- Python `round(x, d)` on a float: finite values round half to even; nan and
the infinities are returned unchanged. -/
def npRound (d : ℕ) : NpFloat → NpFloat
  | NpFloat.fin q => NpFloat.fin (pyRound d q)
  | NpFloat.nan => NpFloat.nan
  | NpFloat.inf => NpFloat.inf
  | NpFloat.negInf => NpFloat.negInf

/-- Embedding a numpy float into a payload value. -/
def npToJ : NpFloat → JVal
  | NpFloat.fin q => JVal.jnum q
  | NpFloat.nan => JVal.jnan
  | NpFloat.inf => JVal.jinf
  | NpFloat.negInf => JVal.jneginf

/-- One row of a yfinance history DataFrame (the date is kept pre-formatted). -/
structure HistRow where
  date : String
  openPrice : ℚ
  high : ℚ
  low : ℚ
  close : ℚ
  volume : ℤ

/-- What yfinance exposes for one ticker: `stock.info`, `stock.history(period)`
and `stock.recommendations` (rows already stringified column-wise, as the
source immediately converts every cell with `str`/`isoformat`). -/
structure TickerData where
  info : Payload
  hist : String → List HistRow
  recs : Option (List (List (String × String)))

/-- The world the tools run against. `fetch` is the yfinance access: an
`Except.error msg` stands for any exception raised while fetching, which every
tool body catches and turns into an "error" payload. `startTime`/`finalTime`
are the two `time.time()` readings of the agent loop; `now` is
`datetime.now().isoformat()`. -/
structure ToolEnv where
  fetch : String → Except String TickerData
  now : String
  startTime : ℚ
  finalTime : ℚ

/-- Python max over a close list (the source only calls it on nonempty lists). -/
def maxD0 : List ℚ → ℚ
  | [] => 0
  | x :: xs => xs.foldl max x

/-- Python min over a close list (the source only calls it on nonempty lists). -/
def minD0 : List ℚ → ℚ
  | [] => 0
  | x :: xs => xs.foldl min x

/-- Head close with an unreachable default (guarded by nonemptiness checks). -/
def headD0 (l : List ℚ) : ℚ := l.headD 0

/-- Last close with an unreachable default (guarded by nonemptiness checks). -/
def lastD0 (l : List ℚ) : ℚ := l.getLastD 0

/-- Last `n` elements of a list, as pandas `.tail(n)` / Python `l[-n:]`. -/
def lastN (n : ℕ) (l : List α) : List α := l.drop (l.length - n)

/-- Source: `tools.py::get_stock_price`. The whole body is wrapped in
`try/except Exception` returning `{"error": str(e)}`; a non-string ticker
raises inside that block, modelled by the generic error payload. `iloc[-1]` and
`iloc[-2]` are read off the reversed history. The closes are numpy float64
scalars, so `change / prev` at `prev = 0` does not raise but yields nan
(`0.0 / 0.0`) or a signed infinity, modelled by `npDiv`. -/
def get_stock_price (env : ToolEnv) (tv : JVal) : Payload :=
  match tv with
  | JVal.jstr ticker =>
    match env.fetch ticker with
    | Except.error e => [("error", JVal.jstr e)]
    | Except.ok td =>
      match (td.hist "5d").reverse with
      | [] => [("error", JVal.jstr ("No data found for ticker " ++ ticker))]
      | lastRow :: earlier =>
        let current := lastRow.close
        let prev :=
          match earlier with
          | [] => current
          | prevRow :: _ => prevRow.close
        let change := current - prev
        let change_pct := npMul100 (npDiv change prev)
        [("ticker", JVal.jstr ticker.toUpper),
         ("price", JVal.jnum (pyRound 2 current)),
         ("change", JVal.jnum (pyRound 2 change)),
         ("change_percent", npToJ (npRound 2 change_pct)),
         ("day_high", JVal.jnum (pyRound 2 lastRow.high)),
         ("day_low", JVal.jnum (pyRound 2 lastRow.low)),
         ("volume", JVal.jnum (lastRow.volume : ℚ)),
         ("market_cap", infoGet td.info "marketCap"),
         ("currency", infoGetD td.info "currency" (JVal.jstr "USD")),
         ("exchange", infoGetD td.info "exchange" (JVal.jstr "N/A")),
         ("timestamp", JVal.jstr env.now)]
  | _ => [("error", JVal.jstr "TypeError: ticker must be a string")]

/-- Source pattern `round(info.get(k, 0) * 100, 2)` (no truthiness guard).
Numeric info values are modelled as `jnum`; the model restricts info values for
numeric keys to numbers or null. -/
def pctD0 (info : Payload) (k : String) : JVal :=
  match infoGetD info k (JVal.jnum 0) with
  | JVal.jnum q => JVal.jnum (pyRound 2 (q * 100))
  | _ => JVal.jnull

/-- Source pattern `round(info.get(k, 0) * 100, 2) if info.get(k) else None`. -/
def pctOrNull (info : Payload) (k : String) : JVal :=
  let v := infoGet info k
  if truthy v then
    match v with
    | JVal.jnum q => JVal.jnum (pyRound 2 (q * 100))
    | _ => JVal.jnull
  else JVal.jnull

/-- Source pattern `round(info.get(k, 0) * 100, 2) if info.get(k) else 0`. -/
def pctOrZero (info : Payload) (k : String) : JVal :=
  let v := infoGet info k
  if truthy v then
    match v with
    | JVal.jnum q => JVal.jnum (pyRound 2 (q * 100))
    | _ => JVal.jnull
  else JVal.jnum 0

/-- Source: `tools.py::get_company_fundamentals`. -/
def get_company_fundamentals (env : ToolEnv) (tv : JVal) : Payload :=
  match tv with
  | JVal.jstr ticker =>
    match env.fetch ticker with
    | Except.error e => [("error", JVal.jstr e)]
    | Except.ok td =>
      [("ticker", JVal.jstr ticker.toUpper),
       ("name", infoGetD td.info "longName" (JVal.jstr "N/A")),
       ("sector", infoGetD td.info "sector" (JVal.jstr "N/A")),
       ("industry", infoGetD td.info "industry" (JVal.jstr "N/A")),
       ("employees", infoGet td.info "fullTimeEmployees"),
       ("financials", JVal.jobj [
          ("revenue", infoGet td.info "totalRevenue"),
          ("net_income", infoGet td.info "netIncomeToCommon"),
          ("gross_margins", pctD0 td.info "grossMargins"),
          ("operating_margins", pctD0 td.info "operatingMargins"),
          ("profit_margins", pctD0 td.info "profitMargins"),
          ("revenue_growth", pctD0 td.info "revenueGrowth"),
          ("earnings_growth", pctOrNull td.info "earningsGrowth")]),
       ("valuation", JVal.jobj [
          ("pe_ratio", infoGet td.info "trailingPE"),
          ("forward_pe", infoGet td.info "forwardPE"),
          ("peg_ratio", infoGet td.info "pegRatio"),
          ("price_to_book", infoGet td.info "priceToBook"),
          ("price_to_sales", infoGet td.info "priceToSalesTrailing12Months"),
          ("enterprise_value", infoGet td.info "enterpriseValue"),
          ("ev_to_ebitda", infoGet td.info "enterpriseToEbitda")]),
       ("dividends", JVal.jobj [
          ("dividend_yield", pctOrZero td.info "dividendYield"),
          ("payout_ratio", pctOrZero td.info "payoutRatio")]),
       ("debt", JVal.jobj [
          ("total_debt", infoGet td.info "totalDebt"),
          ("total_cash", infoGet td.info "totalCash"),
          ("debt_to_equity", infoGet td.info "debtToEquity"),
          ("current_ratio", infoGet td.info "currentRatio")])]
  | _ => [("error", JVal.jstr "TypeError: ticker must be a string")]

/-- One entry of the `prices` list built by `get_price_history`. -/
def priceEntry (r : HistRow) : Payload :=
  [("date", JVal.jstr r.date),
   ("open", JVal.jnum (pyRound 2 r.openPrice)),
   ("high", JVal.jnum (pyRound 2 r.high)),
   ("low", JVal.jnum (pyRound 2 r.low)),
   ("close", JVal.jnum (pyRound 2 r.close)),
   ("volume", JVal.jnum (r.volume : ℚ))]

/-- Source: `tools.py::get_price_history`. -/
def get_price_history (env : ToolEnv) (tv pv : JVal) : Payload :=
  match tv, pv with
  | JVal.jstr ticker, JVal.jstr period =>
    match env.fetch ticker with
    | Except.error e => [("error", JVal.jstr e)]
    | Except.ok td =>
      let hist := td.hist period
      if hist.isEmpty then
        [("error", JVal.jstr ("No history for " ++ ticker))]
      else
        let prices := hist.map priceEntry
        let closes := hist.map (fun r => pyRound 2 r.close)
        [("ticker", JVal.jstr ticker.toUpper),
         ("period", JVal.jstr period),
         ("data_points", JVal.jnum (prices.length : ℚ)),
         ("prices", JVal.jarr (prices.map JVal.jobj)),
         ("summary", JVal.jobj [
            ("start_price", JVal.jnum (headD0 closes)),
            ("end_price", JVal.jnum (lastD0 closes)),
            ("change_percent",
              JVal.jnum (pyRound 2 (((lastD0 closes - headD0 closes) / headD0 closes) * 100))),
            ("high", JVal.jnum (maxD0 closes)),
            ("low", JVal.jnum (minD0 closes)),
            ("avg_volume",
              JVal.jnum ((pyInt (((hist.map HistRow.volume).sum : ℚ) / (prices.length : ℚ))) : ℚ))])]
  | _, _ => [("error", JVal.jstr "TypeError: invalid arguments")]

/-- One already-stringified recommendations row as a JSON object. -/
def strRow (row : List (String × String)) : JVal :=
  JVal.jobj (row.map (fun p => (p.1, JVal.jstr p.2)))

/-- Source: `tools.py::get_analyst_recommendations`. -/
def get_analyst_recommendations (env : ToolEnv) (tv : JVal) : Payload :=
  match tv with
  | JVal.jstr ticker =>
    match env.fetch ticker with
    | Except.error e => [("error", JVal.jstr e)]
    | Except.ok td =>
      let recent_recs : List (List (String × String)) :=
        match td.recs with
        | some rows => if rows.isEmpty then [] else lastN 10 rows
        | none => []
      [("ticker", JVal.jstr ticker.toUpper),
       ("target_prices", JVal.jobj [
          ("current_price", infoGet td.info "currentPrice"),
          ("target_high", infoGet td.info "targetHighPrice"),
          ("target_low", infoGet td.info "targetLowPrice"),
          ("target_mean", infoGet td.info "targetMeanPrice"),
          ("target_median", infoGet td.info "targetMedianPrice"),
          ("number_of_analysts", infoGet td.info "numberOfAnalystOpinions")]),
       ("recommendation", infoGetD td.info "recommendationKey" (JVal.jstr "N/A")),
       ("recommendation_mean", infoGet td.info "recommendationMean"),
       ("recent_recommendations",
         JVal.jarr (if recent_recs.isEmpty then [] else (lastN 5 recent_recs).map strRow))]
  | _ => [("error", JVal.jstr "TypeError: ticker must be a string")]

/-- One iteration of the `for ticker in tickers[:5]` loop of `compare_stocks`.
An `Except.error` stands for an exception escaping the iteration, which the
single surrounding `try/except` turns into one "error" payload for the whole
call (a non-string ticker raises on `ticker.upper()`/fetch). -/
def compareOne (env : ToolEnv) (tv : JVal) : Except String Payload :=
  match tv with
  | JVal.jstr ticker =>
    match env.fetch ticker with
    | Except.error e => Except.error e
    | Except.ok td =>
      let hist := td.hist "1mo"
      let month_change : ℚ :=
        if 1 < hist.length then
          pyRound 2 (((lastD0 (hist.map HistRow.close) - headD0 (hist.map HistRow.close)) /
            headD0 (hist.map HistRow.close)) * 100)
        else 0
      let priceInfo := infoGet td.info "currentPrice"
      let price : JVal :=
        if truthy priceInfo then priceInfo
        else if hist.isEmpty then JVal.jnull
        else JVal.jnum (pyRound 2 (lastD0 (hist.map HistRow.close)))
      Except.ok
        [("ticker", JVal.jstr ticker.toUpper),
         ("name", infoGetD td.info "longName" (JVal.jstr "N/A")),
         ("price", price),
         ("market_cap", infoGet td.info "marketCap"),
         ("pe_ratio", infoGet td.info "trailingPE"),
         ("revenue_growth", pctOrNull td.info "revenueGrowth"),
         ("profit_margins", pctOrNull td.info "profitMargins"),
         ("1mo_change", JVal.jnum month_change),
         ("dividend_yield", pctOrZero td.info "dividendYield")]
  | _ => Except.error "AttributeError: ticker must be a string"

/-- The comparison loop of `compare_stocks`, over the already-truncated list.
Partial results are discarded when an iteration raises, matching the single
surrounding `try/except` of the source. -/
def compareMany (env : ToolEnv) : List JVal → Except String (List Payload)
  | [] => Except.ok []
  | tv :: rest =>
    match compareOne env tv with
    | Except.error e => Except.error e
    | Except.ok c =>
      match compareMany env rest with
      | Except.error e => Except.error e
      | Except.ok cs => Except.ok (c :: cs)

/-- Source: `tools.py::compare_stocks`. `tickers[:5]` is `List.take 5`; a
non-list argument raises inside the `try` and yields an "error" payload. -/
def compare_stocks (env : ToolEnv) (tv : JVal) : Payload :=
  match tv with
  | JVal.jarr tickers =>
    match compareMany env (tickers.take 5) with
    | Except.error e => [("error", JVal.jstr e)]
    | Except.ok comparisons =>
      [("stocks_compared", JVal.jnum (comparisons.length : ℚ)),
       ("comparisons", JVal.jarr (comparisons.map JVal.jobj))]
  | _ => [("error", JVal.jstr "TypeError: tickers must be a list")]

/-- Python exceptions that can escape the tool-dispatch lambdas. -/
inductive PyExn where
  | keyError : String → PyExn
deriving DecidableEq

/-- Python `args[k]` on a dict: the value, or a raised `KeyError`. -/
def lookupArg (args : Payload) (k : String) : Except PyExn JVal :=
  match pyGet args k with
  | some v => Except.ok v
  | none => Except.error (PyExn.keyError k)

/-- The keys of the `TOOL_FUNCTIONS` dict of `tools.py`. -/
def TOOL_NAMES : List String :=
  ["get_stock_price", "get_company_fundamentals", "get_price_history",
   "get_analyst_recommendations", "compare_stocks"]

/-- Source: `tools.py::TOOL_FUNCTIONS` — applying the lambda stored under
`name` to the argument dict. The required-key lookup `args["ticker"]` /
`args["tickers"]` happens in the lambda, outside the tool body's `try`, so a
missing key raises `KeyError`; `args.get("period", "1mo")` never raises. -/
def TOOL_FUNCTIONS (env : ToolEnv) (name : String) (args : Payload) :
    Except PyExn Payload :=
  if name = "get_stock_price" then
    match lookupArg args "ticker" with
    | Except.error e => Except.error e
    | Except.ok t => Except.ok (get_stock_price env t)
  else if name = "get_company_fundamentals" then
    match lookupArg args "ticker" with
    | Except.error e => Except.error e
    | Except.ok t => Except.ok (get_company_fundamentals env t)
  else if name = "get_price_history" then
    match lookupArg args "ticker" with
    | Except.error e => Except.error e
    | Except.ok t =>
      Except.ok (get_price_history env t ((pyGet args "period").getD (JVal.jstr "1mo")))
  else if name = "get_analyst_recommendations" then
    match lookupArg args "ticker" with
    | Except.error e => Except.error e
    | Except.ok t => Except.ok (get_analyst_recommendations env t)
  else if name = "compare_stocks" then
    match lookupArg args "tickers" with
    | Except.error e => Except.error e
    | Except.ok ts => Except.ok (compare_stocks env ts)
  else Except.error (PyExn.keyError name)

/-- The required argument key of each registered tool, per its input schema. -/
def requiredKey (name : String) : String :=
  if name = "compare_stocks" then "tickers" else "ticker"

/-- Token usage of one LLM response (`response.usage`). -/
structure Usage where
  input_tokens : ℕ
  output_tokens : ℕ

/-- One content block of an LLM response: a text block or a tool_use block
(`block.name`, `block.input`, `block.id`). -/
inductive Block where
  | text : String → Block
  | toolUse : String → Payload → String → Block

/-- One LLM response: usage, stop reason and content blocks. -/
structure Response where
  usage : Usage
  stop_reason : String
  content : List Block

/-- One tool_result entry appended to the conversation
(`{"type": "tool_result", "tool_use_id": ..., "content": json.dumps(result)}`);
the serialized dict is carried as the dict itself. -/
structure ToolResultMsg where
  tool_use_id : String
  content : Payload

/-- One audit-trail entry of `tools_called`
(`{"tool": ..., "input": ..., "success": ...}`). -/
structure ToolRecord where
  tool : String
  input : Payload
  success : Bool

/-- Content of one conversation turn: the seed user string, an assistant
block list, or a tool_result list. -/
inductive MsgContent where
  | text : String → MsgContent
  | blocks : List Block → MsgContent
  | results : List ToolResultMsg → MsgContent

/-- One turn of the `messages` list. -/
structure Message where
  role : String
  content : MsgContent

/-- The mutable locals of `FinanceAgent.analyze` between rounds. -/
structure LoopState where
  messages : List Message
  tools_called : List ToolRecord
  total_input : ℕ
  total_output : ℕ

/-- The `metrics` dict of the returned analysis. -/
structure Metrics where
  total_tools_called : ℕ
  input_tokens : ℕ
  output_tokens : ℕ
  total_tokens : ℕ
  latency_seconds : ℚ
  estimated_cost_usd : ℚ

/-- The dict returned by `FinanceAgent.analyze`. -/
structure AgentResult where
  analysis : String
  tools_called : List ToolRecord
  metrics : Metrics

/-- The ids of the tool_use blocks of a round, in order. -/
def toolUseIds : List Block → List String
  | [] => []
  | Block.text _ :: rest => toolUseIds rest
  | Block.toolUse _ _ tid :: rest => tid :: toolUseIds rest

/-- The names of the tool_use blocks of a round, in order. -/
def toolUseNames : List Block → List String
  | [] => []
  | Block.text _ :: rest => toolUseNames rest
  | Block.toolUse name _ _ :: rest => name :: toolUseNames rest

/-- Number of tool_use blocks of a round. -/
def numToolUse (bs : List Block) : ℕ := (toolUseIds bs).length

/-- The ids of a tool_result turn, in order. -/
def resultIds (rs : List ToolResultMsg) : List String :=
  rs.map ToolResultMsg.tool_use_id

/-- Source: `agent.py` lines 71-85, the `for block in response.content` loop.
For each tool_use block: if the name is registered, the stored lambda is
applied (which may raise `KeyError`, modelled by `Except.error`, aborting the
round); otherwise the `{"error": "Unknown tool: <name>"}` result and a
`success=False` record are synthesized. Returns the `tool_results` and the
records appended to `tools_called`, in block order. -/
def execBlocks (env : ToolEnv) : List Block → Except PyExn (List ToolResultMsg × List ToolRecord)
  | [] => Except.ok ([], [])
  | Block.text _ :: rest => execBlocks env rest
  | Block.toolUse name args tid :: rest =>
    if name ∈ TOOL_NAMES then
      match TOOL_FUNCTIONS env name args with
      | Except.error e => Except.error e
      | Except.ok result =>
        match execBlocks env rest with
        | Except.error e => Except.error e
        | Except.ok (rs, recs) =>
          Except.ok (⟨tid, result⟩ :: rs, ⟨name, args, !hasKey result "error"⟩ :: recs)
    else
      match execBlocks env rest with
      | Except.error e => Except.error e
      | Except.ok (rs, recs) =>
        Except.ok (⟨tid, [("error", JVal.jstr ("Unknown tool: " ++ name))]⟩ :: rs,
                   ⟨name, args, false⟩ :: recs)

/-- Source: `agent.py` lines 90-93 — concatenation of the `.text` attribute of
every block that has one (tool_use blocks have none). -/
def finalText : List Block → String
  | [] => ""
  | Block.text s :: rest => s ++ finalText rest
  | Block.toolUse _ _ _ :: rest => finalText rest

/-- Source: `agent.py` lines 95-107 — building the returned dict at loop exit. -/
def finalizeResult (env : ToolEnv) (st : LoopState) (resp : Response) : AgentResult :=
  { analysis := finalText resp.content
    tools_called := st.tools_called
    metrics :=
      { total_tools_called := st.tools_called.length
        input_tokens := st.total_input
        output_tokens := st.total_output
        total_tokens := st.total_input + st.total_output
        latency_seconds := pyRound 2 (env.finalTime - env.startTime)
        estimated_cost_usd :=
          pyRound 4 ((st.total_input : ℚ) * (3/1000) / 1000 +
                     (st.total_output : ℚ) * (15/1000) / 1000) } }

/-- Source: `agent.py` lines 59-107, one iteration of the `while True` loop on
response `resp`: accumulate usage; on `stop_reason == "tool_use"` execute the
blocks (a raised `KeyError` escapes, appending nothing) and append the
assistant turn and the combined tool_results turn; otherwise build and return
the final result. `Sum.inl` continues the loop, `Sum.inr` returns. -/
def stepRound (env : ToolEnv) (resp : Response) (st : LoopState) :
    Except PyExn (LoopState ⊕ AgentResult) :=
  let st1 : LoopState :=
    { st with total_input := st.total_input + resp.usage.input_tokens
              total_output := st.total_output + resp.usage.output_tokens }
  if resp.stop_reason = "tool_use" then
    match execBlocks env resp.content with
    | Except.error e => Except.error e
    | Except.ok (tool_results, recs) =>
      Except.ok (Sum.inl
        { st1 with
            messages := st1.messages ++
              [⟨"assistant", MsgContent.blocks resp.content⟩,
               ⟨"user", MsgContent.results tool_results⟩]
            tools_called := st1.tools_called ++ recs })
  else
    Except.ok (Sum.inr (finalizeResult env st1 resp))

/-- The loop state at entry of the `while True` loop. -/
def initState (user_query : String) : LoopState :=
  { messages := [⟨"user", MsgContent.text user_query⟩]
    tools_called := []
    total_input := 0
    total_output := 0 }

/-- The agent loop driven by a finite script of LLM responses, one per round.
`Except.ok none` means the script was exhausted while the loop still wanted
another response; `Except.ok (some res)` is normal return; `Except.error` is a
propagated Python exception. -/
def runScript (env : ToolEnv) : LoopState → List Response → Except PyExn (Option AgentResult)
  | _, [] => Except.ok none
  | st, resp :: rest =>
    match stepRound env resp st with
    | Except.error e => Except.error e
    | Except.ok (Sum.inr res) => Except.ok (some res)
    | Except.ok (Sum.inl st') => runScript env st' rest

/-- Source: `agent.py::FinanceAgent.analyze` with the LLM replaced by the
finite scripted oracle. -/
def FinanceAgent.analyze (env : ToolEnv) (user_query : String)
    (script : List Response) : Except PyExn (Option AgentResult) :=
  runScript env (initState user_query) script

/-- The agent loop driven by an infinite oracle, with fuel: `none` means the
loop is still running after `fuel` rounds; `some outcome` means it halted
(normally or with an exception) within the fuel. `n` is the round index. -/
def runFuel (env : ToolEnv) (oracle : ℕ → Response) :
    LoopState → ℕ → ℕ → Option (Except PyExn AgentResult)
  | _, _, 0 => none
  | st, n, fuel + 1 =>
    match stepRound env (oracle n) st with
    | Except.error e => some (Except.error e)
    | Except.ok (Sum.inr res) => some (Except.ok res)
    | Except.ok (Sum.inl st') => runFuel env oracle st' (n + 1) fuel

/-- Well-formedness of one block: a tool_use block naming a registered tool
carries the required argument key (so its dispatch lambda cannot raise). -/
def blockWF : Block → Prop
  | Block.text _ => True
  | Block.toolUse name args _ => name ∈ TOOL_NAMES → hasKey args (requiredKey name) = true

/-- Well-formedness of a round: every block is well-formed. -/
def roundWF (resp : Response) : Prop := ∀ b ∈ resp.content, blockWF b

/-- Python whitespace characters stripped by `str.strip()`. -/
def isPySpace (c : Char) : Bool :=
  c == ' ' || c == '\t' || c == '\n' || c == '\r' || c == '\x0b' || c == '\x0c'

/-- Python `s.strip()`. -/
def pyStrip (s : String) : String :=
  ⟨((s.data.dropWhile isPySpace).reverse.dropWhile isPySpace).reverse⟩

/-- Body of the HTTP response of the `/api/analyze` endpoint. -/
inductive ApiBody where
  | result : AgentResult → ApiBody
  | err : String → ApiBody

/-- HTTP response of the `/api/analyze` endpoint. -/
structure ApiResponse where
  status : ℕ
  body : ApiBody

/-- Source: `main.py::analyze` (the `/api/analyze` handler). The agent call is
abstracted as a function from the stripped query to the loop outcome, so that
non-invocation is expressed by the result being independent of it. A non-string
`query` value raises on `.strip()` and is caught by `except Exception` (500);
a raised agent exception likewise yields a 500 response. -/
def api_analyze (runAgent : String → Except PyExn AgentResult) (body : Payload) : ApiResponse :=
  match (pyGet body "query").getD (JVal.jstr "") with
  | JVal.jstr q0 =>
    let query := pyStrip q0
    if query = "" then { status := 400, body := ApiBody.err "Query is required" }
    else
      match runAgent query with
      | Except.ok res => { status := 200, body := ApiBody.result res }
      | Except.error _ => { status := 500, body := ApiBody.err "Analysis failed" }
  | _ => { status := 500, body := ApiBody.err "Analysis failed" }

/-- Concrete environment in which every fetch raises (offline world). -/
def env0 : ToolEnv :=
  { fetch := fun _ => Except.error "network unavailable"
    now := "2026-10-12T00:00:00"
    startTime := 0
    finalTime := 0 }

/-- Concrete single history row used by witnesses. -/
def rowA : HistRow :=
  { date := "2026-10-10", openPrice := 10, high := 12, low := 9, close := 11, volume := 1000 }

/-- Concrete ticker data with a one-row history. -/
def tdA : TickerData :=
  { info := [("currentPrice", JVal.jnum 100)]
    hist := fun _ => [rowA]
    recs := none }

/-- Concrete degenerate single history row whose close is 0.0 (a Yahoo data
glitch mode). -/
def rowZ : HistRow :=
  { date := "2026-10-10", openPrice := 0, high := 0, low := 0, close := 0, volume := 0 }

/-- Concrete ticker data with a one-row history at a zero close. -/
def tdZ : TickerData :=
  { info := []
    hist := fun _ => [rowZ]
    recs := none }

/-- Concrete environment in which every ticker resolves to the zero-close
one-row data. -/
def envZ : ToolEnv :=
  { fetch := fun _ => Except.ok tdZ
    now := "2026-10-12T00:00:00"
    startTime := 0
    finalTime := 0 }

/-- Concrete environment in which the ticker "AAPL" resolves and every other
fetch raises. -/
def envW : ToolEnv :=
  { fetch := fun t => if t = "AAPL" then Except.ok tdA else Except.error "HTTPError"
    now := "2026-10-12T00:00:00"
    startTime := 10
    finalTime := 12 }

/-- A round requesting the registered tool `get_stock_price` with an argument
map missing the required "ticker" key. -/
def badResp1 : Response :=
  { usage := ⟨7, 3⟩, stop_reason := "tool_use"
    content := [Block.toolUse "get_stock_price" [] "toolu_1"] }

/-- A round requesting the registered tool `compare_stocks` with an argument
map missing the required "tickers" key. -/
def badResp2 : Response :=
  { usage := ⟨2, 2⟩, stop_reason := "tool_use"
    content := [Block.toolUse "compare_stocks" [] "toolu_2"] }

/-- A round requesting first an unregistered tool, then a registered tool with
a malformed argument map. -/
def compositeResp : Response :=
  { usage := ⟨1, 1⟩, stop_reason := "tool_use"
    content := [Block.toolUse "magic" [] "id_a",
                Block.toolUse "get_stock_price" [] "id_b"] }

/-- A final (non-tool_use) round. -/
def finalRespC : Response :=
  { usage := ⟨5, 7⟩, stop_reason := "end_turn", content := [Block.text "done"] }

/-- An oracle that requests tools forever, always with a malformed argument map. -/
def oracleBad : ℕ → Response := fun _ => badResp1

/-- An oracle that immediately gives a final answer. -/
def oracleFinal : ℕ → Response := fun _ => finalRespC

/-- First scripted tool round used by the C4 witness: one well-formed
registered call. -/
def wr1 : Response :=
  { usage := ⟨1, 2⟩, stop_reason := "tool_use"
    content := [Block.toolUse "get_stock_price" [("ticker", JVal.jstr "AAPL")] "a1"] }

/-- Second scripted tool round used by the C4 witness: one unknown-tool call. -/
def wr2 : Response :=
  { usage := ⟨3, 4⟩, stop_reason := "tool_use"
    content := [Block.toolUse "magic" [] "a2"] }

/-- Round with two tool_use blocks (one registered and well-formed, one
unknown) used by the C3 witness. -/
def respW3 : Response :=
  { usage := ⟨2, 3⟩, stop_reason := "tool_use"
    content := [Block.toolUse "get_stock_price" [("ticker", JVal.jstr "AAPL")] "id1",
                Block.toolUse "magic" [] "id2"] }

/-- The tool_results produced by executing `respW3` against `envW`. -/
def rsW3 : List ToolResultMsg :=
  [⟨"id1", get_stock_price envW (JVal.jstr "AAPL")⟩,
   ⟨"id2", [("error", JVal.jstr "Unknown tool: magic")]⟩]

/-- The audit records produced by executing `respW3` against `envW`. -/
def recsW3 : List ToolRecord :=
  [⟨"get_stock_price", [("ticker", JVal.jstr "AAPL")], true⟩,
   ⟨"magic", [], false⟩]

/-- A stub agent function used by the C9 witness (its value is irrelevant:
the endpoint rejects the request before invoking it). -/
def agentStub : String → Except PyExn AgentResult :=
  fun _ => Except.error (PyExn.keyError "stub")

/-- The result of the one-round final script `[finalRespC]` against `env0`. -/
def resW : AgentResult :=
  finalizeResult env0
    { messages := [⟨"user", MsgContent.text "q"⟩]
      tools_called := [], total_input := 5, total_output := 7 } finalRespC

/-- Round with a single unknown-tool request, used by the C2 witness. -/
def respW2 : Response :=
  { usage := ⟨4, 4⟩, stop_reason := "tool_use"
    content := [Block.toolUse "magic" [] "id_w"] }

/-- The tool_results produced by executing `respW2` (any environment). -/
def rsW2 : List ToolResultMsg :=
  [⟨"id_w", [("error", JVal.jstr "Unknown tool: magic")]⟩]

/-- The audit records produced by executing `respW2` (any environment). -/
def recsW2 : List ToolRecord :=
  [⟨"magic", [], false⟩]

/-- Decides whether an `Except` is `ok`. -/
def exOk : Except ε α → Bool
  | Except.ok _ => true
  | Except.error _ => false

/-! ## Helper lemmas -/

theorem exOk_exists {e : Except ε α} (h : exOk e = true) : ∃ a, e = Except.ok a := by
  cases e with
  | ok a => exact ⟨a, rfl⟩
  | error _ => simp [exOk] at h

theorem pyRound_zero (d : ℕ) : pyRound d 0 = 0 := by
  norm_num [pyRound, roundHalfEven]

theorem hasKey_exists {p : Payload} {k : String} (h : hasKey p k = true) :
    ∃ v, pyGet p k = some v := by
  simpa [hasKey, Option.isSome_iff_exists] using h

theorem TOOL_FUNCTIONS_ok (env : ToolEnv) (name : String) (args : Payload)
    (hreg : name ∈ TOOL_NAMES) (hkey : hasKey args (requiredKey name) = true) :
    ∃ p, TOOL_FUNCTIONS env name args = Except.ok p := by
  simp only [TOOL_NAMES, List.mem_cons, List.mem_singleton, List.not_mem_nil, or_false] at hreg
  rcases hreg with rfl | rfl | rfl | rfl | rfl
  · obtain ⟨v, hv⟩ := hasKey_exists hkey
    rw [show requiredKey "get_stock_price" = "ticker" from rfl] at hv
    exact ⟨get_stock_price env v, by simp [TOOL_FUNCTIONS, lookupArg, hv]⟩
  · obtain ⟨v, hv⟩ := hasKey_exists hkey
    rw [show requiredKey "get_company_fundamentals" = "ticker" from rfl] at hv
    exact ⟨get_company_fundamentals env v, by simp [TOOL_FUNCTIONS, lookupArg, hv]⟩
  · obtain ⟨v, hv⟩ := hasKey_exists hkey
    rw [show requiredKey "get_price_history" = "ticker" from rfl] at hv
    exact ⟨get_price_history env v ((pyGet args "period").getD (JVal.jstr "1mo")),
      by simp [TOOL_FUNCTIONS, lookupArg, hv]⟩
  · obtain ⟨v, hv⟩ := hasKey_exists hkey
    rw [show requiredKey "get_analyst_recommendations" = "ticker" from rfl] at hv
    exact ⟨get_analyst_recommendations env v, by simp [TOOL_FUNCTIONS, lookupArg, hv]⟩
  · obtain ⟨v, hv⟩ := hasKey_exists hkey
    rw [show requiredKey "compare_stocks" = "tickers" from rfl] at hv
    exact ⟨compare_stocks env v, by simp [TOOL_FUNCTIONS, lookupArg, hv]⟩

theorem execBlocks_ok_of_wf (env : ToolEnv) :
    ∀ bs : List Block, (∀ b ∈ bs, blockWF b) →
    ∃ pr, execBlocks env bs = Except.ok pr := by
  intro bs
  induction bs with
  | nil => exact fun _ => ⟨([], []), rfl⟩
  | cons b rest ih =>
    intro hwf
    obtain ⟨⟨rs, recs⟩, hrest⟩ := ih (fun x hx => hwf x (List.mem_cons_of_mem b hx))
    cases b with
    | text s => exact ⟨(rs, recs), by simpa [execBlocks] using hrest⟩
    | toolUse name args tid =>
      by_cases hn : name ∈ TOOL_NAMES
      · have hkey : hasKey args (requiredKey name) = true :=
          hwf (Block.toolUse name args tid) (List.mem_cons_self _ _) hn
        obtain ⟨p, hp⟩ := TOOL_FUNCTIONS_ok env name args hn hkey
        exact ⟨(⟨tid, p⟩ :: rs, ⟨name, args, !hasKey p "error"⟩ :: recs),
          by simp [execBlocks, if_pos hn, hp, hrest]⟩
      · exact ⟨(⟨tid, [("error", JVal.jstr ("Unknown tool: " ++ name))]⟩ :: rs,
               ⟨name, args, false⟩ :: recs),
          by simp [execBlocks, if_neg hn, hrest]⟩

theorem toolUseNames_length : ∀ bs : List Block, (toolUseNames bs).length = numToolUse bs := by
  intro bs
  induction bs with
  | nil => rfl
  | cons b rest ih =>
    cases b with
    | text s => simpa [toolUseNames, numToolUse, toolUseIds] using ih
    | toolUse name args tid => simpa [toolUseNames, numToolUse, toolUseIds] using ih

theorem execBlocks_ids (env : ToolEnv) :
    ∀ (bs : List Block) (rs : List ToolResultMsg) (recs : List ToolRecord),
    execBlocks env bs = Except.ok (rs, recs) →
    resultIds rs = toolUseIds bs ∧
    recs.map ToolRecord.tool = toolUseNames bs ∧
    rs.length = numToolUse bs ∧
    recs.length = numToolUse bs := by
  intro bs
  induction bs with
  | nil =>
    intro rs recs h
    simp only [execBlocks, Except.ok.injEq, Prod.mk.injEq] at h
    obtain ⟨h1, h2⟩ := h
    subst h1; subst h2
    simp [resultIds, toolUseIds, toolUseNames, numToolUse]
  | cons b rest ih =>
    intro rs recs h
    cases b with
    | text s =>
      simp only [execBlocks] at h
      have := ih rs recs h
      simpa [toolUseIds, toolUseNames, numToolUse] using this
    | toolUse name args tid =>
      by_cases hn : name ∈ TOOL_NAMES
      · rw [execBlocks, if_pos hn] at h
        cases hd : TOOL_FUNCTIONS env name args with
        | error e => rw [hd] at h; simp at h
        | ok result =>
          rw [hd] at h
          cases hrest : execBlocks env rest with
          | error e => rw [hrest] at h; simp at h
          | ok pr =>
            obtain ⟨rs', recs'⟩ := pr
            rw [hrest] at h
            simp only [Except.ok.injEq, Prod.mk.injEq] at h
            obtain ⟨h1, h2⟩ := h
            subst h1; subst h2
            obtain ⟨i1, i2, i3, i4⟩ := ih rs' recs' hrest
            refine ⟨?_, ?_, ?_, ?_⟩
            · simpa [resultIds, toolUseIds] using i1
            · simpa [toolUseNames] using i2
            · simpa [numToolUse, toolUseIds] using i3
            · simpa [numToolUse, toolUseIds] using i4
      · rw [execBlocks, if_neg hn] at h
        cases hrest : execBlocks env rest with
        | error e => rw [hrest] at h; simp at h
        | ok pr =>
          obtain ⟨rs', recs'⟩ := pr
          rw [hrest] at h
          simp only [Except.ok.injEq, Prod.mk.injEq] at h
          obtain ⟨h1, h2⟩ := h
          subst h1; subst h2
          obtain ⟨i1, i2, i3, i4⟩ := ih rs' recs' hrest
          refine ⟨?_, ?_, ?_, ?_⟩
          · simpa [resultIds, toolUseIds] using i1
          · simpa [toolUseNames] using i2
          · simpa [numToolUse, toolUseIds] using i3
          · simpa [numToolUse, toolUseIds] using i4

theorem execBlocks_unknown_mem (env : ToolEnv) :
    ∀ (bs : List Block) (rs : List ToolResultMsg) (recs : List ToolRecord)
      (name : String) (args : Payload) (tid : String),
    execBlocks env bs = Except.ok (rs, recs) →
    Block.toolUse name args tid ∈ bs →
    name ∉ TOOL_NAMES →
    (⟨tid, [("error", JVal.jstr ("Unknown tool: " ++ name))]⟩ : ToolResultMsg) ∈ rs ∧
    (⟨name, args, false⟩ : ToolRecord) ∈ recs := by
  intro bs
  induction bs with
  | nil => intro rs recs name args tid _ hmem _; cases hmem
  | cons b rest ih =>
    intro rs recs name args tid h hmem hunk
    cases b with
    | text s =>
      simp only [execBlocks] at h
      rcases List.mem_cons.mp hmem with heq | hmem'
      · cases heq
      · exact ih rs recs name args tid h hmem' hunk
    | toolUse bname bargs btid =>
      by_cases hn : bname ∈ TOOL_NAMES
      · rw [execBlocks, if_pos hn] at h
        cases hd : TOOL_FUNCTIONS env bname bargs with
        | error e => rw [hd] at h; simp at h
        | ok result =>
          rw [hd] at h
          cases hrest : execBlocks env rest with
          | error e => rw [hrest] at h; simp at h
          | ok pr =>
            obtain ⟨rs', recs'⟩ := pr
            rw [hrest] at h
            simp only [Except.ok.injEq, Prod.mk.injEq] at h
            obtain ⟨h1, h2⟩ := h
            subst h1; subst h2
            rcases List.mem_cons.mp hmem with heq | hmem'
            · injection heq with e1 e2 e3
              subst e1
              exact absurd hn hunk
            · obtain ⟨m1, m2⟩ := ih rs' recs' name args tid hrest hmem' hunk
              exact ⟨List.mem_cons_of_mem _ m1, List.mem_cons_of_mem _ m2⟩
      · rw [execBlocks, if_neg hn] at h
        cases hrest : execBlocks env rest with
        | error e => rw [hrest] at h; simp at h
        | ok pr =>
          obtain ⟨rs', recs'⟩ := pr
          rw [hrest] at h
          simp only [Except.ok.injEq, Prod.mk.injEq] at h
          obtain ⟨h1, h2⟩ := h
          subst h1; subst h2
          rcases List.mem_cons.mp hmem with heq | hmem'
          · injection heq with e1 e2 e3
            subst e1; subst e2; subst e3
            exact ⟨List.mem_cons_self _ _, List.mem_cons_self _ _⟩
          · obtain ⟨m1, m2⟩ := ih rs' recs' name args tid hrest hmem' hunk
            exact ⟨List.mem_cons_of_mem _ m1, List.mem_cons_of_mem _ m2⟩

theorem stepRound_tool_ex (env : ToolEnv) (resp : Response) (st : LoopState)
    (rs : List ToolResultMsg) (recs : List ToolRecord)
    (h1 : resp.stop_reason = "tool_use")
    (h2 : execBlocks env resp.content = Except.ok (rs, recs)) :
    ∃ st', stepRound env resp st = Except.ok (Sum.inl st') ∧
      st'.messages = st.messages ++
        [⟨"assistant", MsgContent.blocks resp.content⟩,
         ⟨"user", MsgContent.results rs⟩] ∧
      st'.tools_called = st.tools_called ++ recs ∧
      st'.total_input = st.total_input + resp.usage.input_tokens ∧
      st'.total_output = st.total_output + resp.usage.output_tokens := by
  refine ⟨{ messages := st.messages ++
              [⟨"assistant", MsgContent.blocks resp.content⟩,
               ⟨"user", MsgContent.results rs⟩]
            tools_called := st.tools_called ++ recs
            total_input := st.total_input + resp.usage.input_tokens
            total_output := st.total_output + resp.usage.output_tokens },
          ?_, rfl, rfl, rfl, rfl⟩
  simp only [stepRound, if_pos h1, h2]

theorem stepRound_final (env : ToolEnv) (resp : Response) (st : LoopState)
    (h : ¬ resp.stop_reason = "tool_use") :
    stepRound env resp st = Except.ok (Sum.inr (finalizeResult env
      { st with total_input := st.total_input + resp.usage.input_tokens
                total_output := st.total_output + resp.usage.output_tokens } resp)) := by
  simp only [stepRound, if_neg h]

theorem stepRound_inr (env : ToolEnv) (resp : Response) (st : LoopState) (r : AgentResult)
    (h : stepRound env resp st = Except.ok (Sum.inr r)) :
    ¬ resp.stop_reason = "tool_use" := by
  intro hstop
  rw [stepRound] at h
  simp only [if_pos hstop] at h
  split at h <;> simp at h

theorem runFuel_ok_imp (env : ToolEnv) (oracle : ℕ → Response) :
    ∀ (fuel : ℕ) (st : LoopState) (n : ℕ) (res : AgentResult),
    runFuel env oracle st n fuel = some (Except.ok res) →
    ∃ m, ¬ (oracle m).stop_reason = "tool_use" := by
  intro fuel
  induction fuel with
  | zero => intro st n res h; simp [runFuel] at h
  | succ fuel ih =>
    intro st n res h
    rw [runFuel] at h
    cases hs : stepRound env (oracle n) st with
    | error e => rw [hs] at h; simp at h
    | ok v =>
      rw [hs] at h
      cases v with
      | inl st' => exact ih st' (n + 1) res h
      | inr r => exact ⟨n, stepRound_inr env (oracle n) st r hs⟩

theorem runFuel_reaches (env : ToolEnv) (oracle : ℕ → Response)
    (hwf : ∀ n, roundWF (oracle n)) :
    ∀ (k n : ℕ) (st : LoopState),
    (∀ m, m < k → (oracle (n + m)).stop_reason = "tool_use") →
    ¬ (oracle (n + k)).stop_reason = "tool_use" →
    ∃ res, runFuel env oracle st n (k + 1) = some (Except.ok res) := by
  intro k
  induction k with
  | zero =>
    intro n st _ hfin
    rw [Nat.add_zero] at hfin
    refine ⟨finalizeResult env
      { st with total_input := st.total_input + (oracle n).usage.input_tokens
                total_output := st.total_output + (oracle n).usage.output_tokens } (oracle n), ?_⟩
    rw [runFuel, stepRound_final env (oracle n) st hfin]
  | succ k ih =>
    intro n st htool hfin
    have h0 : (oracle n).stop_reason = "tool_use" := by
      simpa using htool 0 (Nat.succ_pos k)
    obtain ⟨⟨rs, recs⟩, hex⟩ := execBlocks_ok_of_wf env (oracle n).content (hwf n)
    obtain ⟨st', hs, -, -, -, -⟩ := stepRound_tool_ex env (oracle n) st rs recs h0 hex
    have htool' : ∀ m, m < k → (oracle (n + 1 + m)).stop_reason = "tool_use" := by
      intro m hm
      have e : n + 1 + m = n + (m + 1) := by omega
      rw [e]
      exact htool (m + 1) (by omega)
    have hfin' : ¬ (oracle (n + 1 + k)).stop_reason = "tool_use" := by
      have e : n + 1 + k = n + (k + 1) := by omega
      rw [e]
      exact hfin
    obtain ⟨res, hres⟩ := ih (n + 1) st' htool' hfin'
    refine ⟨res, ?_⟩
    rw [runFuel, hs]
    exact hres

theorem runScript_metrics (env : ToolEnv) :
    ∀ (script : List Response) (st : LoopState) (res : AgentResult),
    runScript env st script = Except.ok (some res) →
    res.metrics.total_tokens = res.metrics.input_tokens + res.metrics.output_tokens ∧
    res.metrics.estimated_cost_usd =
      pyRound 4 ((res.metrics.input_tokens : ℚ) * (3/1000) / 1000 +
                 (res.metrics.output_tokens : ℚ) * (15/1000) / 1000) ∧
    res.metrics.latency_seconds = pyRound 2 (env.finalTime - env.startTime) ∧
    res.metrics.total_tools_called = res.tools_called.length := by
  intro script
  induction script with
  | nil => intro st res h; simp [runScript] at h
  | cons resp rest ih =>
    intro st res h
    rw [runScript] at h
    cases hs : stepRound env resp st with
    | error e => rw [hs] at h; simp at h
    | ok v =>
      rw [hs] at h
      cases v with
      | inl st' => exact ih st' res h
      | inr r =>
        have hres : r = res := by simpa using h
        subst hres
        by_cases hstop : resp.stop_reason = "tool_use"
        · rw [stepRound] at hs
          simp only [if_pos hstop] at hs
          split at hs <;> simp at hs
        · rw [stepRound_final env resp st hstop] at hs
          have hf : finalizeResult env
              { st with total_input := st.total_input + resp.usage.input_tokens
                        total_output := st.total_output + resp.usage.output_tokens } resp = r := by
            simpa using hs
          subst hf
          exact ⟨rfl, rfl, rfl, rfl⟩

theorem compareMany_length (env : ToolEnv) :
    ∀ (ts : List JVal) (cs : List Payload),
    compareMany env ts = Except.ok cs → cs.length = ts.length := by
  intro ts
  induction ts with
  | nil => intro cs h; simp only [compareMany, Except.ok.injEq] at h; subst h; rfl
  | cons t rest ih =>
    intro cs h
    rw [compareMany] at h
    cases h1 : compareOne env t with
    | error e => rw [h1] at h; simp at h
    | ok c =>
      rw [h1] at h
      cases h2 : compareMany env rest with
      | error e => rw [h2] at h; simp at h
      | ok cs' =>
        rw [h2] at h
        simp only [Except.ok.injEq] at h
        subst h
        simp [ih cs' h2]

theorem compareOne_ok (env : ToolEnv) (s : String) (td : TickerData)
    (hf : env.fetch s = Except.ok td) :
    ∃ c, compareOne env (JVal.jstr s) = Except.ok c := by
  have h : exOk (compareOne env (JVal.jstr s)) = true := by
    simp only [compareOne, hf]
    rfl
  exact exOk_exists h

theorem compareMany_ok (env : ToolEnv) :
    ∀ ts : List JVal,
    (∀ t ∈ ts, ∃ s td, t = JVal.jstr s ∧ env.fetch s = Except.ok td) →
    ∃ cs, compareMany env ts = Except.ok cs := by
  intro ts
  induction ts with
  | nil => exact fun _ => ⟨[], rfl⟩
  | cons t rest ih =>
    intro hv
    obtain ⟨cs, hcs⟩ := ih (fun x hx => hv x (List.mem_cons_of_mem t hx))
    obtain ⟨s, td, ht, hf⟩ := hv t (List.mem_cons_self _ _)
    subst ht
    obtain ⟨c, hc⟩ := compareOne_ok env s td hf
    exact ⟨c :: cs, by rw [compareMany, hc, hcs]⟩

/-! ## Claim theorems -/

/-- C1 counterexample: a ToolRequest naming a registered tool
(`get_stock_price`) with an argument map missing the required "ticker" key is
not converted into an error-tagged ToolResult: the `KeyError` raised by the
dispatch lambda propagates out of the agent loop's tool-dispatch step. -/
theorem missing_ticker_key_raises :
    "get_stock_price" ∈ TOOL_NAMES ∧
    FinanceAgent.analyze env0 "q" [badResp1] = Except.error (PyExn.keyError "ticker") :=
  ⟨by decide, rfl⟩

/-- C1 (amended): for every ToolRequest naming a registered tool whose argument
map contains that tool's required key, dispatch returns normally (failures
inside the tool body are caught by the body itself and surface as payloads, so
no exception escapes), and executing the block produces a ToolResult. -/
theorem dispatch_ok_of_required_key (env : ToolEnv) (name : String) (args : Payload)
    (tid : String)
    (hreg : name ∈ TOOL_NAMES) (hkey : hasKey args (requiredKey name) = true) :
    exOk (TOOL_FUNCTIONS env name args) = true ∧
    exOk (execBlocks env [Block.toolUse name args tid]) = true := by
  obtain ⟨p, hp⟩ := TOOL_FUNCTIONS_ok env name args hreg hkey
  constructor
  · rw [hp]; rfl
  · rw [execBlocks, if_pos hreg, hp]
    rfl

/-- C1 witness: concrete well-keyed dispatch of `get_stock_price` succeeds
(here in an environment whose fetch raises, exercising the body's own catch). -/
theorem dispatch_ok_of_required_key_witness :
    exOk (TOOL_FUNCTIONS env0 "get_stock_price" [("ticker", JVal.jstr "AAPL")]) = true ∧
    exOk (execBlocks env0
      [Block.toolUse "get_stock_price" [("ticker", JVal.jstr "AAPL")] "w1"]) = true :=
  dispatch_ok_of_required_key env0 "get_stock_price" [("ticker", JVal.jstr "AAPL")] "w1"
    (by decide) rfl

/-- C2 counterexample: a round that requests an unknown tool can nevertheless
terminate the loop by raising, when another request of the same round names a
registered tool with a malformed argument map. -/
theorem unknown_tool_round_can_raise :
    "magic" ∉ TOOL_NAMES ∧
    FinanceAgent.analyze env0 "q" [compositeResp] = Except.error (PyExn.keyError "ticker") :=
  ⟨by decide, rfl⟩

/-- C2 (amended): in every round whose execution completes (in particular when
every registered-tool request of the round carries its required argument key),
an unknown-tool request yields the appended ToolResult with payload
`{"error": "Unknown tool: <name>"}` and a ToolRecord with success=false, and
the loop proceeds to the next round rather than terminating or raising. -/
theorem unknown_tool_continues (env : ToolEnv) (resp : Response) (st : LoopState)
    (rs : List ToolResultMsg) (recs : List ToolRecord)
    (name : String) (args : Payload) (tid : String)
    (h1 : resp.stop_reason = "tool_use")
    (hex : execBlocks env resp.content = Except.ok (rs, recs))
    (hmem : Block.toolUse name args tid ∈ resp.content)
    (hunk : name ∉ TOOL_NAMES) :
    (∃ st', stepRound env resp st = Except.ok (Sum.inl st') ∧
       st'.messages = st.messages ++
         [⟨"assistant", MsgContent.blocks resp.content⟩,
          ⟨"user", MsgContent.results rs⟩] ∧
       st'.tools_called = st.tools_called ++ recs) ∧
    (⟨tid, [("error", JVal.jstr ("Unknown tool: " ++ name))]⟩ : ToolResultMsg) ∈ rs ∧
    (⟨name, args, false⟩ : ToolRecord) ∈ recs := by
  obtain ⟨st', hs, hm, htc, -, -⟩ := stepRound_tool_ex env resp st rs recs h1 hex
  obtain ⟨m1, m2⟩ := execBlocks_unknown_mem env resp.content rs recs name args tid hex hmem hunk
  exact ⟨⟨st', hs, hm, htc⟩, m1, m2⟩

/-- C2 witness: the unknown tool "magic" produces its error ToolResult and its
success=false record in a concrete completing round. -/
theorem unknown_tool_continues_witness :
    (⟨"id_w", [("error", JVal.jstr "Unknown tool: magic")]⟩ : ToolResultMsg) ∈ rsW2 ∧
    (⟨"magic", [], false⟩ : ToolRecord) ∈ recsW2 := by
  have h := unknown_tool_continues env0 respW2 (initState "q") rsW2 recsW2 "magic" [] "id_w"
    rfl rfl
    (show Block.toolUse "magic" [] "id_w" ∈ [Block.toolUse "magic" [] "id_w"] from
      List.mem_singleton.mpr rfl)
    (by decide)
  exact ⟨h.2.1, h.2.2⟩

/-- C3: in every completing tool round the loop appends exactly two turns —
the assistant content and one combined tool_results turn — whose result ids
are, in order, the ids of the round's tool_use blocks; with unique ids each
request id gets exactly one result, and no result lacks a matching request. -/
theorem tool_round_trip_invariant (env : ToolEnv) (resp : Response) (st : LoopState)
    (rs : List ToolResultMsg) (recs : List ToolRecord)
    (h1 : resp.stop_reason = "tool_use")
    (h2 : execBlocks env resp.content = Except.ok (rs, recs))
    (hnd : (toolUseIds resp.content).Nodup) :
    ∃ st', stepRound env resp st = Except.ok (Sum.inl st') ∧
      st'.messages = st.messages ++
        [⟨"assistant", MsgContent.blocks resp.content⟩,
         ⟨"user", MsgContent.results rs⟩] ∧
      resultIds rs = toolUseIds resp.content ∧
      (∀ tid ∈ toolUseIds resp.content, (resultIds rs).count tid = 1) ∧
      (∀ r ∈ rs, r.tool_use_id ∈ toolUseIds resp.content) := by
  obtain ⟨st', hs, hm, -, -, -⟩ := stepRound_tool_ex env resp st rs recs h1 h2
  obtain ⟨i1, -, -, -⟩ := execBlocks_ids env resp.content rs recs h2
  refine ⟨st', hs, hm, i1, ?_, ?_⟩
  · intro tid htid
    rw [i1]
    exact List.count_eq_one_of_mem hnd htid
  · intro r hr
    rw [← i1]
    exact List.mem_map_of_mem ToolResultMsg.tool_use_id hr

/-- C3 witness: a concrete two-request round round-trips both ids. -/
theorem tool_round_trip_invariant_witness :
    resultIds rsW3 = toolUseIds respW3.content ∧ (resultIds rsW3).count "id1" = 1 := by
  obtain ⟨st', -, -, i1, hc, -⟩ :=
    tool_round_trip_invariant envW respW3 (initState "q") rsW3 recsW3 rfl rfl (by decide)
  exact ⟨i1, hc "id1" (by decide)⟩

/-- C6: for every processed ToolRequest whose execution completes, the appended
ToolRecord's success flag is true exactly when the corresponding result payload
has no "error" key — including payloads that carry an "error" key returned
without raising. -/
theorem success_flag_iff_no_error_key (env : ToolEnv) :
    ∀ (bs : List Block) (rs : List ToolResultMsg) (recs : List ToolRecord),
    execBlocks env bs = Except.ok (rs, recs) →
    ∀ pr ∈ rs.zip recs, pr.2.success = !hasKey pr.1.content "error" := by
  intro bs
  induction bs with
  | nil =>
    intro rs recs h
    simp only [execBlocks, Except.ok.injEq, Prod.mk.injEq] at h
    obtain ⟨h1, h2⟩ := h
    subst h1; subst h2
    intro pr hpr
    simp at hpr
  | cons b rest ih =>
    intro rs recs h
    cases b with
    | text s => exact ih rs recs (by simpa [execBlocks] using h)
    | toolUse name args tid =>
      by_cases hn : name ∈ TOOL_NAMES
      · rw [execBlocks, if_pos hn] at h
        cases hd : TOOL_FUNCTIONS env name args with
        | error e => rw [hd] at h; simp at h
        | ok result =>
          rw [hd] at h
          cases hrest : execBlocks env rest with
          | error e => rw [hrest] at h; simp at h
          | ok pr0 =>
            obtain ⟨rs', recs'⟩ := pr0
            rw [hrest] at h
            simp only [Except.ok.injEq, Prod.mk.injEq] at h
            obtain ⟨hh1, hh2⟩ := h
            subst hh1; subst hh2
            intro pr hpr
            rcases List.mem_cons.mp (by simpa [List.zip_cons_cons] using hpr) with heq | hmem'
            · subst heq; rfl
            · exact ih rs' recs' hrest pr hmem'
      · rw [execBlocks, if_neg hn] at h
        cases hrest : execBlocks env rest with
        | error e => rw [hrest] at h; simp at h
        | ok pr0 =>
          obtain ⟨rs', recs'⟩ := pr0
          rw [hrest] at h
          simp only [Except.ok.injEq, Prod.mk.injEq] at h
          obtain ⟨hh1, hh2⟩ := h
          subst hh1; subst hh2
          intro pr hpr
          rcases List.mem_cons.mp (by simpa [List.zip_cons_cons] using hpr) with heq | hmem'
          · subst heq; rfl
          · exact ih rs' recs' hrest pr hmem'

/-- C6 witness: a data-source-level failure (fetch raises, the body returns a
payload carrying "error") is recorded with success=false although no exception
crossed the executor. -/
theorem success_flag_iff_no_error_key_witness :
    false = !hasKey [("error", JVal.jstr "network unavailable")] "error" := by
  have h := success_flag_iff_no_error_key env0
    [Block.toolUse "get_stock_price" [("ticker", JVal.jstr "ZZZ")] "e1"]
    [⟨"e1", [("error", JVal.jstr "network unavailable")]⟩]
    [⟨"get_stock_price", [("ticker", JVal.jstr "ZZZ")], false⟩] rfl
  exact h (⟨"e1", [("error", JVal.jstr "network unavailable")]⟩,
           ⟨"get_stock_price", [("ticker", JVal.jstr "ZZZ")], false⟩)
    (List.mem_singleton.mpr rfl)

/-- C10 counterexample: at a one-row 5-day history whose close is 0.0 the call
still returns a success payload with change 0, but change_percent is the numpy
nan of `0.0 / 0.0`, not 0. -/
theorem zero_close_single_row_nan :
    tdZ.hist "5d" = [rowZ] ∧
    hasKey (get_stock_price envZ (JVal.jstr "ZERO")) "error" = false ∧
    pyGet (get_stock_price envZ (JVal.jstr "ZERO")) "change" = some (JVal.jnum 0) ∧
    pyGet (get_stock_price envZ (JVal.jstr "ZERO")) "change_percent" = some JVal.jnan := by
  have hp : get_stock_price envZ (JVal.jstr "ZERO") =
      [("ticker", JVal.jstr ("ZERO".toUpper)),
       ("price", JVal.jnum 0),
       ("change", JVal.jnum 0),
       ("change_percent", JVal.jnan),
       ("day_high", JVal.jnum 0),
       ("day_low", JVal.jnum 0),
       ("volume", JVal.jnum 0),
       ("market_cap", infoGet tdZ.info "marketCap"),
       ("currency", infoGetD tdZ.info "currency" (JVal.jstr "USD")),
       ("exchange", infoGetD tdZ.info "exchange" (JVal.jstr "N/A")),
       ("timestamp", JVal.jstr envZ.now)] := by
    simp only [get_stock_price, show envZ.fetch "ZERO" = Except.ok tdZ from rfl,
      show tdZ.hist "5d" = [rowZ] from rfl, List.reverse_singleton]
    norm_num [rowZ, npDiv, npMul100, npRound, npToJ, pyRound_zero]
  rw [hp]
  exact ⟨rfl, rfl, rfl, rfl⟩

/-- C10 (amended): when the 5-day history has exactly one row whose close is
nonzero, `get_stock_price` returns a success payload (no "error" key) whose
change and change_percent are 0, because the previous close defaults to the
current close; at a zero close the payload is still a success payload with
change 0, but its change_percent is nan. -/
theorem single_row_history_zero_change (env : ToolEnv) (ticker : String)
    (td : TickerData) (r : HistRow)
    (hf : env.fetch ticker = Except.ok td) (h5 : td.hist "5d" = [r])
    (hc : ¬ r.close = 0) :
    hasKey (get_stock_price env (JVal.jstr ticker)) "error" = false ∧
    pyGet (get_stock_price env (JVal.jstr ticker)) "change" = some (JVal.jnum 0) ∧
    pyGet (get_stock_price env (JVal.jstr ticker)) "change_percent" = some (JVal.jnum 0) := by
  have hp : get_stock_price env (JVal.jstr ticker) =
      [("ticker", JVal.jstr ticker.toUpper),
       ("price", JVal.jnum (pyRound 2 r.close)),
       ("change", JVal.jnum 0),
       ("change_percent", JVal.jnum 0),
       ("day_high", JVal.jnum (pyRound 2 r.high)),
       ("day_low", JVal.jnum (pyRound 2 r.low)),
       ("volume", JVal.jnum (r.volume : ℚ)),
       ("market_cap", infoGet td.info "marketCap"),
       ("currency", infoGetD td.info "currency" (JVal.jstr "USD")),
       ("exchange", infoGetD td.info "exchange" (JVal.jstr "N/A")),
       ("timestamp", JVal.jstr env.now)] := by
    simp only [get_stock_price, hf, h5, List.reverse_singleton]
    norm_num [hc, npDiv, npMul100, npRound, npToJ, pyRound_zero]
  rw [hp]
  exact ⟨rfl, rfl, rfl⟩

/-- C10 witness: a concrete one-row 5-day history with a nonzero close yields
the zero-change success payload. -/
theorem single_row_history_zero_change_witness :
    hasKey (get_stock_price envW (JVal.jstr "AAPL")) "error" = false ∧
    pyGet (get_stock_price envW (JVal.jstr "AAPL")) "change" = some (JVal.jnum 0) ∧
    pyGet (get_stock_price envW (JVal.jstr "AAPL")) "change_percent" = some (JVal.jnum 0) :=
  single_row_history_zero_change envW "AAPL" tdA rowA rfl rfl (by norm_num [rowA])

/-- C4 counterexample: a scripted oracle returning tool_use twice then a final
response, whose first round carries a malformed argument map, makes the loop
raise after a single round-trip: no result (and hence no 3-response token sum
or tools_called list) is produced. -/
theorem malformed_script_aborts :
    FinanceAgent.analyze env0 "q" [badResp2, badResp2, finalRespC] =
      Except.error (PyExn.keyError "tickers") :=
  rfl

/-- C4 (amended): for every scripted oracle returning tool_use exactly twice
then a final response, whose tool requests are all well-formed (unknown name or
required key present), the loop consumes exactly the 3 responses — after 2 it
is still running — and returns a result whose tools_called length is the total
tool_use block count of the first two rounds and whose token totals sum the
usage of exactly those 3 responses. -/
theorem three_round_script_totals (env : ToolEnv) (q : String) (r1 r2 r3 : Response)
    (h1 : r1.stop_reason = "tool_use") (h2 : r2.stop_reason = "tool_use")
    (h3 : ¬ r3.stop_reason = "tool_use")
    (w1 : roundWF r1) (w2 : roundWF r2) :
    FinanceAgent.analyze env q [r1, r2] = Except.ok none ∧
    ∃ res, FinanceAgent.analyze env q [r1, r2, r3] = Except.ok (some res) ∧
      res.tools_called.length = numToolUse r1.content + numToolUse r2.content ∧
      res.metrics.input_tokens =
        r1.usage.input_tokens + r2.usage.input_tokens + r3.usage.input_tokens ∧
      res.metrics.output_tokens =
        r1.usage.output_tokens + r2.usage.output_tokens + r3.usage.output_tokens := by
  obtain ⟨⟨rs1, recs1⟩, e1⟩ := execBlocks_ok_of_wf env r1.content w1
  obtain ⟨⟨rs2, recs2⟩, e2⟩ := execBlocks_ok_of_wf env r2.content w2
  obtain ⟨st1, hs1, -, htc1, hin1, hout1⟩ :=
    stepRound_tool_ex env r1 (initState q) rs1 recs1 h1 e1
  obtain ⟨st2, hs2, -, htc2, hin2, hout2⟩ := stepRound_tool_ex env r2 st1 rs2 recs2 h2 e2
  have hs3 := stepRound_final env r3 st2 h3
  obtain ⟨-, -, -, l1⟩ := execBlocks_ids env r1.content rs1 recs1 e1
  obtain ⟨-, -, -, l2⟩ := execBlocks_ids env r2.content rs2 recs2 e2
  constructor
  · simp [FinanceAgent.analyze, runScript, hs1, hs2]
  · refine ⟨finalizeResult env
      { st2 with total_input := st2.total_input + r3.usage.input_tokens
                 total_output := st2.total_output + r3.usage.output_tokens } r3,
      ?_, ?_, ?_, ?_⟩
    · simp [FinanceAgent.analyze, runScript, hs1, hs2, hs3]
    · show st2.tools_called.length = _
      rw [htc2, htc1]
      simp [initState, l1, l2]
    · show st2.total_input + r3.usage.input_tokens = _
      rw [hin2, hin1]
      simp [initState]
    · show st2.total_output + r3.usage.output_tokens = _
      rw [hout2, hout1]
      simp [initState]

/-- C4 witness: after two well-formed tool rounds the loop is still running. -/
theorem three_round_script_totals_witness :
    FinanceAgent.analyze envW "q" [wr1, wr2] = Except.ok none := by
  have hw1 : roundWF wr1 := by
    intro b hb
    simp only [wr1, List.mem_singleton] at hb
    subst hb
    exact fun _ => rfl
  have hw2 : roundWF wr2 := by
    intro b hb
    simp only [wr2, List.mem_singleton] at hb
    subst hb
    exact fun hmem => absurd hmem (by decide)
  exact (three_round_script_totals envW "q" wr1 wr2 finalRespC rfl rfl (by decide) hw1 hw2).1

/-- C5 counterexample: an oracle that returns tool_use forever (with a
malformed argument map) does not drive the loop forever — the loop halts after
one round by raising `KeyError`. -/
theorem forever_tool_use_can_halt :
    runFuel env0 oracleBad (initState "q") 0 1 =
      some (Except.error (PyExn.keyError "ticker")) ∧
    oracleBad = (fun _ => badResp1) ∧
    badResp1.stop_reason = "tool_use" :=
  ⟨rfl, rfl, rfl⟩

/-- C5 (amended): for every oracle whose tool requests are all well-formed, the
loop returns normally iff the oracle eventually produces a non-tool_use
response; in particular there is no internal round or tool-call cap, so such an
oracle returning tool_use forever drives the loop forever. -/
theorem termination_iff_final (env : ToolEnv) (oracle : ℕ → Response) (q : String)
    (hwf : ∀ n, roundWF (oracle n)) :
    (∃ fuel res, runFuel env oracle (initState q) 0 fuel = some (Except.ok res)) ↔
    ∃ n, ¬ (oracle n).stop_reason = "tool_use" := by
  constructor
  · rintro ⟨fuel, res, h⟩
    exact runFuel_ok_imp env oracle fuel (initState q) 0 res h
  · intro hx
    have hmin : ∀ m, m < Nat.find hx → (oracle m).stop_reason = "tool_use" := by
      intro m hm
      exact not_not.mp (Nat.find_min hx hm)
    obtain ⟨res, hres⟩ := runFuel_reaches env oracle hwf (Nat.find hx) 0 (initState q)
      (fun m hm => by simpa using hmin m hm)
      (by simpa using Nat.find_spec hx)
    exact ⟨Nat.find hx + 1, res, hres⟩

/-- C5 witness: a well-formed oracle that immediately stops requesting tools
makes the loop terminate normally. -/
theorem termination_iff_final_witness :
    ∃ fuel res, runFuel env0 oracleFinal (initState "q") 0 fuel = some (Except.ok res) :=
  (termination_iff_final env0 oracleFinal "q"
    (fun _ b hb => by
      simp only [oracleFinal, finalRespC, List.mem_singleton] at hb
      subst hb
      exact trivial)).mpr ⟨0, by decide⟩

/-- C7: `compare_stocks` only processes the first 5 tickers (the call equals
the call on the truncated list), any produced comparisons list has length at
most 5, and for fewer than 5 valid string tickers the comparisons length equals
the number of resolved tickers. -/
theorem compare_stocks_truncates :
    (∀ (env : ToolEnv) (ts : List JVal),
       compare_stocks env (JVal.jarr ts) = compare_stocks env (JVal.jarr (ts.take 5))) ∧
    (∀ (env : ToolEnv) (tv : JVal) (l : List JVal),
       pyGet (compare_stocks env tv) "comparisons" = some (JVal.jarr l) → l.length ≤ 5) ∧
    (∀ (env : ToolEnv) (ts : List JVal),
       ts.length < 5 →
       (∀ t ∈ ts, ∃ s td, t = JVal.jstr s ∧ env.fetch s = Except.ok td) →
       ∃ cs : List Payload, compare_stocks env (JVal.jarr ts) =
           [("stocks_compared", JVal.jnum (cs.length : ℚ)),
            ("comparisons", JVal.jarr (cs.map JVal.jobj))] ∧
         cs.length = ts.length) := by
  refine ⟨?_, ?_, ?_⟩
  · intro env ts
    simp [compare_stocks, List.take_take]
  · intro env tv l h
    cases tv with
    | jarr ts =>
      cases hcm : compareMany env (ts.take 5) with
      | error e => simp [compare_stocks, hcm, pyGet] at h
      | ok cs =>
        simp only [compare_stocks, hcm] at h
        rw [show pyGet [("stocks_compared", JVal.jnum (cs.length : ℚ)),
              ("comparisons", JVal.jarr (cs.map JVal.jobj))] "comparisons" =
            some (JVal.jarr (cs.map JVal.jobj)) from rfl] at h
        simp only [Option.some.injEq, JVal.jarr.injEq] at h
        subst h
        have hlen := compareMany_length env (ts.take 5) cs hcm
        simp only [List.length_map, hlen, List.length_take]
        exact min_le_left _ _
    | jnull => simp [compare_stocks, pyGet] at h
    | jbool b => simp [compare_stocks, pyGet] at h
    | jnum q => simp [compare_stocks, pyGet] at h
    | jnan => simp [compare_stocks, pyGet] at h
    | jinf => simp [compare_stocks, pyGet] at h
    | jneginf => simp [compare_stocks, pyGet] at h
    | jstr s => simp [compare_stocks, pyGet] at h
    | jobj o => simp [compare_stocks, pyGet] at h
  · intro env ts hlen hval
    obtain ⟨cs, hcs⟩ := compareMany_ok env (ts.take 5)
      (fun t ht => hval t (List.take_subset _ _ ht))
    refine ⟨cs, ?_, ?_⟩
    · simp only [compare_stocks, hcs]
    · rw [compareMany_length env (ts.take 5) cs hcs,
        List.take_of_length_le (le_of_lt hlen)]

/-- C7 witness: a concrete 6-element ticker list is processed as its 5-element
truncation, and a concrete produced comparisons list is within the bound. -/
theorem compare_stocks_truncates_witness :
    compare_stocks env0 (JVal.jarr [JVal.jstr "A", JVal.jstr "B", JVal.jstr "C",
      JVal.jstr "D", JVal.jstr "E", JVal.jstr "F"]) =
      compare_stocks env0 (JVal.jarr ([JVal.jstr "A", JVal.jstr "B", JVal.jstr "C",
        JVal.jstr "D", JVal.jstr "E", JVal.jstr "F"].take 5)) ∧
    ([] : List JVal).length ≤ 5 :=
  ⟨compare_stocks_truncates.1 env0 _,
   compare_stocks_truncates.2.1 env0 (JVal.jarr []) [] rfl⟩

/-- C8: every returned result's total_tokens is the sum of its input and output
token counts, its estimated_cost_usd is the source's linear cost formula of
those counts rounded to 4 decimals, and its latency_seconds is the elapsed
wall-clock difference rounded to 2 decimals. -/
theorem metrics_formulas (env : ToolEnv) (q : String) (script : List Response)
    (res : AgentResult)
    (h : FinanceAgent.analyze env q script = Except.ok (some res)) :
    res.metrics.total_tokens = res.metrics.input_tokens + res.metrics.output_tokens ∧
    res.metrics.estimated_cost_usd =
      pyRound 4 ((res.metrics.input_tokens : ℚ) * (3/1000) / 1000 +
                 (res.metrics.output_tokens : ℚ) * (15/1000) / 1000) ∧
    res.metrics.latency_seconds = pyRound 2 (env.finalTime - env.startTime) := by
  obtain ⟨a, b, c, -⟩ := runScript_metrics env script (initState q) res h
  exact ⟨a, b, c⟩

/-- C8 witness: the metrics relations hold for a concrete one-round run. -/
theorem metrics_formulas_witness :
    resW.metrics.total_tokens = resW.metrics.input_tokens + resW.metrics.output_tokens ∧
    resW.metrics.estimated_cost_usd =
      pyRound 4 ((resW.metrics.input_tokens : ℚ) * (3/1000) / 1000 +
                 (resW.metrics.output_tokens : ℚ) * (15/1000) / 1000) ∧
    resW.metrics.latency_seconds = pyRound 2 (env0.finalTime - env0.startTime) :=
  metrics_formulas env0 "q" [finalRespC] resW rfl

/-- C9: a request whose query strips to the empty string (missing, empty or
whitespace-only) is rejected with status 400 and the "Query is required" error
before the agent loop is invoked — the response is the same for every agent
function, so no LLM call is made and no token usage is recorded. -/
theorem empty_query_rejected (runAgent : String → Except PyExn AgentResult)
    (body : Payload) (q0 : String)
    (hq : (pyGet body "query").getD (JVal.jstr "") = JVal.jstr q0)
    (he : pyStrip q0 = "") :
    api_analyze runAgent body = { status := 400, body := ApiBody.err "Query is required" } := by
  simp only [api_analyze, hq, he]
  rfl

/-- C9 witness: a whitespace-only query is rejected with 400. -/
theorem empty_query_rejected_witness :
    api_analyze agentStub [("query", JVal.jstr "   ")] =
      { status := 400, body := ApiBody.err "Query is required" } :=
  empty_query_rejected agentStub [("query", JVal.jstr "   ")] "   " rfl rfl

end FinAgent
